import Mathlib

/-!
Shallow embedding of `metadata/moa/scripts/nbconverted/0.merge-repurposing-compounds.py`.

The script loads two tab-separated tables (`repurposing_drugs_20200324.txt` and
`repurposing_samples_20200324.txt`), asserts that the `pert_iname` key sets agree,
inner-joins the tables on `pert_iname`, moves `broad_id` to the front, derives an
`InChIKey14` column, and then builds a "long" variant in which the pipe-delimited
`moa` and `target` fields are exploded to one row per value and re-joined onto the
combined table, with a placeholder string standing in for missing values during the
explode and being restored to missing afterwards.

Rows are embedded as Lean structures holding the fields the verified claims are
about (missing/NaN cells are `Option.none`); tables are lists of rows in file order,
with the dataframe integer index given by list position.  Python string operations
are embedded character-wise via `String.data : List Char`.
-/

/-- Python `s[:n]` on a string: the first `n` characters. -/
def pyTake (n : Nat) (s : String) : String :=
  String.mk (s.data.take n)

/-- Python `s.startswith(pre)`: the first `len(pre)` characters equal `pre`. -/
def pyStartsWith (s pre : String) : Bool :=
  s.data.take pre.data.length == pre.data

/-- Python `s.split("|")` for the one-character separator used by the script. -/
def pySplit (s : String) : List String :=
  (s.data.splitOn '|').map String.mk

/-- A row of the drugs table (`repurposing_drugs_20200324.txt`), restricted to the
fields the script's logic reads or that the claims mention.  `moa` and `target`
may be missing (NaN), which the embedding writes as `none`; `clinical_phase`
stands for the remaining drug-level annotation columns that are carried through
unchanged. -/
structure DrugRow where
  pert_iname : String
  clinical_phase : Option String
  moa : Option String
  target : Option String
deriving DecidableEq

/-- A row of the samples table (`repurposing_samples_20200324.txt`), restricted to
the fields the script's logic reads.  `InChIKey` is a string in every row the
script can process (`x.startswith` would fail on NaN). -/
structure SampleRow where
  broad_id : String
  pert_iname : String
  InChIKey : String
deriving DecidableEq

/-- The two `assert` statements of the script:
`len(set(drug.pert_iname).difference(set(sample.pert_iname))) == 0` and the
symmetric check.  A set difference is empty exactly when no element of the first
list fails to occur in the second, so the embedding checks that the list of
drug keys missing from the sample keys (and vice versa) has length `0`. -/
def checkAsserts (drug_df : List DrugRow) (sample_df : List SampleRow) : Bool :=
  (((drug_df.map DrugRow.pert_iname).filter
      (fun k => !((sample_df.map SampleRow.pert_iname).contains k))).length == 0)
  && (((sample_df.map SampleRow.pert_iname).filter
      (fun k => !((drug_df.map DrugRow.pert_iname).contains k))).length == 0)

/-- Embeds `drug_df.merge(sample_df, on="pert_iname", how="inner")`: one output row for
every pair of a drug row and a sample row with equal `pert_iname`, in
left-table-major order, as pandas produces for an inner merge. -/
def mergePairs (drug_df : List DrugRow) (sample_df : List SampleRow) :
    List (DrugRow × SampleRow) :=
  drug_df.flatMap (fun d =>
    (sample_df.filter (fun s => s.pert_iname == d.pert_iname)).map (fun s => (d, s)))

/-- The `InChIKey14` derivation applied to each `InChIKey` cell:
`inchi.InchiToInchiKey(x) if x.startswith("InChI") else x` followed by
`str(x)[:14]`.  The external `rdkit` conversion is the opaque parameter `conv`;
on the string cells the script processes, Python `str` is the identity. -/
def inchikey14 (conv : String → String) (x : String) : String :=
  pyTake 14 (if pyStartsWith x "InChI" then conv x else x)

/-- A row of `combined_df` as written to `repurposing_info.tsv`: the joined
drug and sample fields plus the derived `InChIKey14`. -/
structure CombRow where
  broad_id : String
  pert_iname : String
  clinical_phase : Option String
  moa : Option String
  target : Option String
  InChIKey : String
  InChIKey14 : String
deriving DecidableEq

/-- Build one row of `combined_df` from a matched drug row and sample row. -/
def mkCombRow (conv : String → String) (d : DrugRow) (s : SampleRow) : CombRow :=
  { broad_id := s.broad_id
    pert_iname := d.pert_iname
    clinical_phase := d.clinical_phase
    moa := d.moa
    target := d.target
    InChIKey := s.InChIKey
    InChIKey14 := inchikey14 conv s.InChIKey }

/-- The table `combined_df`: the inner join of the two tables on `pert_iname` with
`broad_id` moved to the front and `InChIKey14` assigned.  Column order is
modelled separately (`col_order` / `selectCols`); at row level the reorder and
the `reset_index(drop=True)` do not change any cell. -/
def combined_df (conv : String → String) (drug_df : List DrugRow)
    (sample_df : List SampleRow) : List CombRow :=
  (mergePairs drug_df sample_df).map (fun p => mkCombRow conv p.1 p.2)

/-- Python `fillna("replace_with_na")` on a single cell. -/
def fillNa (v : Option String) : String :=
  match v with
  | none => "replace_with_na"
  | some s => s

/-- A row of `combined_df` after the in-place
`combined_df.moa = combined_df.moa.fillna("replace_with_na")` (and the same for
`target`): the `moa` and `target` cells now always hold strings. -/
structure FilledRow where
  broad_id : String
  pert_iname : String
  clinical_phase : Option String
  moa : String
  target : String
  InChIKey : String
  InChIKey14 : String
deriving DecidableEq

/-- Apply the two `fillna` statements to one combined row. -/
def fillRow (r : CombRow) : FilledRow :=
  { broad_id := r.broad_id
    pert_iname := r.pert_iname
    clinical_phase := r.clinical_phase
    moa := fillNa r.moa
    target := fillNa r.target
    InChIKey := r.InChIKey
    InChIKey14 := r.InChIKey14 }

/-- The table `combined_df` as it stands after cell 8 of the notebook (both `fillna` calls). -/
def filled_df (conv : String → String) (drug_df : List DrugRow)
    (sample_df : List SampleRow) : List FilledRow :=
  (combined_df conv drug_df sample_df).map fillRow

/-- The table `moa_split_df`:
`pd.DataFrame(combined_df.moa.str.split("|").tolist(), index=combined_df.index).stack().reset_index()`.
Row `i`'s `moa` string is split on `"|"`; `stack` emits one output row per split
element, carrying the original index (`repurposing_info_index`), the position
within the split list (the throwaway `"_"` column), and the value
(`moa_unique`). -/
def moa_split_df (t : List FilledRow) : List (Nat × Nat × String) :=
  t.enum.flatMap (fun p =>
    (pySplit p.2.moa).enum.map (fun q => (p.1, q.1, q.2)))

/-- The table `target_split_df`, built exactly like `moa_split_df` from the `target` column. -/
def target_split_df (t : List FilledRow) : List (Nat × Nat × String) :=
  t.enum.flatMap (fun p =>
    (pySplit p.2.target).enum.map (fun q => (p.1, q.1, q.2)))

/-- Embeds `moa_split_df.loc[:, [split_col_index, "moa_unique"]]`: drop the positional
`"_"` column before the merge. -/
def moaSel (t : List FilledRow) : List (Nat × String) :=
  (moa_split_df t).map (fun x => (x.1, x.2.2))

/-- Embeds `target_split_df.loc[:, [split_col_index, "target_unique"]]`. -/
def targetSel (t : List FilledRow) : List (Nat × String) :=
  (target_split_df t).map (fun x => (x.1, x.2.2))

/-- Result rows of the first long-format merge: a combined-table row together
with its original index (`repurposing_info_index`) and one `moa_unique` value
(`none` would arise only for an unmatched left row in the left join). -/
structure MoaLongRow where
  idx : Nat
  row : FilledRow
  moa_unique : Option String
deriving DecidableEq

/-- Result rows of the second long-format merge, before null restoration. -/
structure PreLongRow where
  idx : Nat
  row : FilledRow
  moa_unique : Option String
  target_unique : Option String
deriving DecidableEq

/-- Embeds `combined_df.merge(moa_split_df.loc[:, [split_col_index, "moa_unique"]],
left_index=True, right_on=split_col_index, how="left")`: for each left row (keyed
by its index) all matching split rows in order; an unmatched left row would
survive with a missing `moa_unique`. -/
def leftJoinMoa (t : List FilledRow) (ms : List (Nat × String)) : List MoaLongRow :=
  t.enum.flatMap (fun p =>
    let l := ms.filter (fun q => q.1 == p.1)
    if l.isEmpty then [⟨p.1, p.2, none⟩] else l.map (fun q => ⟨p.1, p.2, some q.2⟩))

/-- Embeds `.merge(target_split_df.loc[:, [split_col_index, "target_unique"]],
on=split_col_index, how="left")`: the second merge, keyed by the
`repurposing_info_index` column carried by the first merge's rows. -/
def leftJoinTarget (rs : List MoaLongRow) (ts : List (Nat × String)) : List PreLongRow :=
  rs.flatMap (fun r =>
    let l := ts.filter (fun q => q.1 == r.idx)
    if l.isEmpty then [⟨r.idx, r.row, r.moa_unique, none⟩]
    else l.map (fun q => ⟨r.idx, r.row, r.moa_unique, some q.2⟩))

/-- The table `long_combined_df` before the four null-restoration statements. -/
def pre_long_df (t : List FilledRow) : List PreLongRow :=
  leftJoinTarget (leftJoinMoa t (moaSel t)) (targetSel t)

/-- One null-restoration statement on a string cell:
`long_combined_df.loc[long_combined_df.c == "replace_with_na", "c"] = np.nan`. -/
def restoreCell (s : String) : Option String :=
  if s = "replace_with_na" then none else some s

/-- Null restoration on a possibly-missing cell: a NaN cell never compares equal
to the placeholder in pandas, so it is left untouched. -/
def restoreOptCell (v : Option String) : Option String :=
  match v with
  | none => none
  | some s => restoreCell s

/-- A row of `long_combined_df` as written to `repurposing_info_long.tsv`:
all columns of the combined table, the back-reference `idx`
(`repurposing_info_index`), and the exploded `moa_unique` / `target_unique`
values, after null restoration. -/
structure LongRow where
  idx : Nat
  broad_id : String
  pert_iname : String
  clinical_phase : Option String
  moa : Option String
  target : Option String
  InChIKey : String
  InChIKey14 : String
  moa_unique : Option String
  target_unique : Option String
deriving DecidableEq

/-- Apply the four null-restoration statements to one row of the long table. -/
def restoreRow (r : PreLongRow) : LongRow :=
  { idx := r.idx
    broad_id := r.row.broad_id
    pert_iname := r.row.pert_iname
    clinical_phase := r.row.clinical_phase
    moa := restoreCell r.row.moa
    target := restoreCell r.row.target
    InChIKey := r.row.InChIKey
    InChIKey14 := r.row.InChIKey14
    moa_unique := restoreOptCell r.moa_unique
    target_unique := restoreOptCell r.target_unique }

/-- The table `long_combined_df` as written to `repurposing_info_long.tsv`. -/
def long_combined_df (conv : String → String) (drug_df : List DrugRow)
    (sample_df : List SampleRow) : List LongRow :=
  (pre_long_df (filled_df conv drug_df sample_df)).map restoreRow

/-- The whole script: if either assertion fails nothing is written; otherwise
both output tables are produced. -/
def runScript (conv : String → String) (drug_df : List DrugRow)
    (sample_df : List SampleRow) : Option (List CombRow × List LongRow) :=
  if checkAsserts drug_df sample_df then
    some (combined_df conv drug_df sample_df, long_combined_df conv drug_df sample_df)
  else none

/-- Embeds `col_order = combined_df.columns.tolist();`
`col_order.insert(0, col_order.pop(col_order.index("broad_id")))`:
the element at the first index of `"broad_id"` is removed and re-inserted at the
front. -/
def col_order (cols : List String) : List String :=
  (cols.getD (cols.indexOf "broad_id") "") :: cols.eraseIdx (cols.indexOf "broad_id")

/-- The cell of `row` under column label `c`, where `cols` is the column list:
pandas label lookup selects the (first) position of the label. -/
def cellAt (cols : List String) (row : List (Option String)) (c : String) :
    Option String :=
  row.getD (cols.indexOf c) none

/-- Embeds `combined_df.loc[:, order]` on one row: the cells under the labels of
`order`, in that order. -/
def selectCols (cols : List String) (row : List (Option String))
    (order : List String) : List (Option String) :=
  order.map (fun c => cellAt cols row c)

/-! ### Structural lemmas about the embedding -/

/-- Splitting a string on the pipe delimiter always yields at least one piece. -/
theorem pySplit_ne_nil (s : String) : pySplit s ≠ [] := by
  intro h
  have h2 := congrArg List.length h
  simp only [pySplit, List.length_map, List.length_nil] at h2
  exact List.splitOnP_ne_nil _ _ (List.length_eq_zero.mp h2)

/-- Membership in an enumeration, in terms of indexing. -/
theorem mem_enumFrom_iff {α : Type _} {l : List α} {n i : Nat} {a : α} :
    (i, a) ∈ l.enumFrom n ↔ n ≤ i ∧ l[i - n]? = some a := by
  rw [List.mem_iff_getElem?]
  constructor
  · rintro ⟨m, hm⟩
    rw [List.getElem?_enumFrom] at hm
    rcases hx : l[m]? with _ | b
    · rw [hx] at hm; simp at hm
    · rw [hx] at hm
      simp only [Option.map_some', Option.some.injEq, Prod.mk.injEq] at hm
      obtain ⟨rfl, rfl⟩ := hm
      constructor
      · omega
      · rw [Nat.add_sub_cancel_left] at *
        exact hx
  · rintro ⟨hle, hget⟩
    refine ⟨i - n, ?_⟩
    rw [List.getElem?_enumFrom, hget]
    have hni : n + (i - n) = i := by omega
    simp [hni]

/-- Membership in `List.enum`, in terms of indexing. -/
theorem mem_enum_iff {α : Type _} {l : List α} {i : Nat} {a : α} :
    (i, a) ∈ l.enum ↔ l[i]? = some a := by
  have h := mem_enumFrom_iff (l := l) (n := 0) (i := i) (a := a)
  simpa using h

/-- Filtering an index-tagged flatMap over an enumeration by one index value
recovers exactly the block generated from that index. -/
theorem filter_key_enumFrom_flatMap {α β : Type _} (key : β → Nat)
    (f : Nat → α → List β) (hk : ∀ j a b, b ∈ f j a → key b = j) (l : List α) :
    ∀ n i : Nat,
      ((l.enumFrom n).flatMap (fun p => f p.1 p.2)).filter (fun b => key b == i)
        = if n ≤ i then ((l[i - n]?).map (f i)).getD [] else [] := by
  induction l with
  | nil =>
    intro n i
    by_cases h : n ≤ i <;> simp [h]
  | cons a t ih =>
    intro n i
    rw [List.enumFrom_cons, List.flatMap_cons, List.filter_append, ih (n + 1) i]
    by_cases hni : n = i
    · subst hni
      have h1 : (f n a).filter (fun b => key b == n) = f n a :=
        List.filter_eq_self.mpr (fun b hb => by simp [hk n a b hb])
      have h2 : ¬(n + 1 ≤ n) := by omega
      simp [h1, h2]
    · have h1 : (f n a).filter (fun b => key b == i) = [] :=
        List.filter_eq_nil_iff.mpr (fun b hb => by simp [hk n a b hb, hni])
      rw [h1, List.nil_append]
      by_cases hle : n ≤ i
      · have hle' : n + 1 ≤ i := by omega
        have hsub : i - n = (i - (n + 1)) + 1 := by omega
        simp [hle, hle', hsub]
      · have hle' : ¬(n + 1 ≤ i) := by omega
        simp [hle, hle']

/-- Mapping a function of the element only over an enumeration forgets the indices. -/
theorem enumFrom_map_snd {γ δ : Type _} (g : γ → δ) (l : List γ) :
    ∀ n : Nat, (l.enumFrom n).map (fun q => g q.2) = l.map g := by
  induction l with
  | nil => intro n; rfl
  | cons a t ih => intro n; simp only [List.enumFrom_cons, List.map_cons, ih]

/-- The projected `moa` split table, as an index-tagged flatMap. -/
theorem moaSel_eq (t : List FilledRow) :
    moaSel t = t.enum.flatMap (fun p => (pySplit p.2.moa).map (fun u => (p.1, u))) := by
  unfold moaSel moa_split_df
  rw [List.map_flatMap]
  refine List.flatMap_congr (fun p _ => ?_)
  rw [List.map_map]
  exact enumFrom_map_snd (fun u => (p.1, u)) (pySplit p.2.moa) 0

/-- The projected `target` split table, as an index-tagged flatMap. -/
theorem targetSel_eq (t : List FilledRow) :
    targetSel t = t.enum.flatMap (fun p => (pySplit p.2.target).map (fun u => (p.1, u))) := by
  unfold targetSel target_split_df
  rw [List.map_flatMap]
  refine List.flatMap_congr (fun p _ => ?_)
  rw [List.map_map]
  exact enumFrom_map_snd (fun u => (p.1, u)) (pySplit p.2.target) 0

/-- Filtering the projected `moa` split table by one index value yields the split
of that row's `moa` string. -/
theorem moaSel_filter (t : List FilledRow) (i : Nat) :
    (moaSel t).filter (fun q => q.1 == i)
      = ((t[i]?).map (fun r => (pySplit r.moa).map (fun u => (i, u)))).getD [] := by
  rw [moaSel_eq]
  have h := filter_key_enumFrom_flatMap (Prod.fst)
    (fun j a => (pySplit a.moa).map (fun u => (j, u)))
    (by rintro j a b hb; rcases List.mem_map.mp hb with ⟨u, _, rfl⟩; rfl) t 0 i
  simpa using h

/-- Filtering the projected `target` split table by one index value yields the
split of that row's `target` string. -/
theorem targetSel_filter (t : List FilledRow) (i : Nat) :
    (targetSel t).filter (fun q => q.1 == i)
      = ((t[i]?).map (fun r => (pySplit r.target).map (fun u => (i, u)))).getD [] := by
  rw [targetSel_eq]
  have h := filter_key_enumFrom_flatMap (Prod.fst)
    (fun j a => (pySplit a.target).map (fun u => (j, u)))
    (by rintro j a b hb; rcases List.mem_map.mp hb with ⟨u, _, rfl⟩; rfl) t 0 i
  simpa using h

/-- The first long-format merge, characterized: every combined row is matched by
the non-empty list of its `moa` split values, so the left join produces one row
per (row, moa value). -/
theorem leftJoinMoa_eq (t : List FilledRow) :
    leftJoinMoa t (moaSel t)
      = t.enum.flatMap (fun p =>
          (pySplit p.2.moa).map (fun u => MoaLongRow.mk p.1 p.2 (some u))) := by
  unfold leftJoinMoa
  refine List.flatMap_congr (fun p hp => ?_)
  have hget : t[p.1]? = some p.2 := mem_enum_iff.mp (by simpa using hp)
  have hfil : (moaSel t).filter (fun q => q.1 == p.1)
      = (pySplit p.2.moa).map (fun u => (p.1, u)) := by
    rw [moaSel_filter, hget]
    rfl
  rw [hfil]
  have hne : (pySplit p.2.moa).map (fun u => (p.1, u)) ≠ [] := by
    intro h
    exact pySplit_ne_nil p.2.moa (List.map_eq_nil_iff.mp h)
  rw [if_neg (by simpa [List.isEmpty_iff] using hne), List.map_map]
  rfl

/-- The composed long-format merges, characterized: one row per combination of a
combined row, one of its `moa` split values, and one of its `target` split
values, carrying the original index. -/
theorem pre_long_df_eq (t : List FilledRow) :
    pre_long_df t
      = t.enum.flatMap (fun p =>
          (pySplit p.2.moa).flatMap (fun m =>
            (pySplit p.2.target).map (fun u =>
              PreLongRow.mk p.1 p.2 (some m) (some u)))) := by
  unfold pre_long_df
  rw [leftJoinMoa_eq]
  unfold leftJoinTarget
  rw [List.flatMap_assoc]
  refine List.flatMap_congr (fun p hp => ?_)
  have hget : t[p.1]? = some p.2 := mem_enum_iff.mp (by simpa using hp)
  rw [List.flatMap_map]
  refine List.flatMap_congr (fun m _ => ?_)
  have hfil : (targetSel t).filter (fun q => q.1 == p.1)
      = (pySplit p.2.target).map (fun u => (p.1, u)) := by
    rw [targetSel_filter, hget]
    rfl
  simp only
  rw [hfil]
  have hne : (pySplit p.2.target).map (fun u => (p.1, u)) ≠ [] := by
    intro h
    exact pySplit_ne_nil p.2.target (List.map_eq_nil_iff.mp h)
  rw [if_neg (by simpa [List.isEmpty_iff] using hne), List.map_map]
  rfl

/-- Filtering the pre-restoration long table by one back-reference index yields
exactly the block of rows exploded from that combined row. -/
theorem pre_long_df_filter (t : List FilledRow) (i : Nat) :
    (pre_long_df t).filter (fun x => x.idx == i)
      = ((t[i]?).map (fun r =>
          (pySplit r.moa).flatMap (fun m =>
            (pySplit r.target).map (fun u =>
              PreLongRow.mk i r (some m) (some u))))).getD [] := by
  rw [pre_long_df_eq]
  have h := filter_key_enumFrom_flatMap (PreLongRow.idx)
    (fun j a => (pySplit a.moa).flatMap (fun m =>
      (pySplit a.target).map (fun u => PreLongRow.mk j a (some m) (some u))))
    (by
      rintro j a b hb
      rcases List.mem_flatMap.mp hb with ⟨m, _, hb2⟩
      rcases List.mem_map.mp hb2 with ⟨u, _, rfl⟩
      rfl) t 0 i
  simpa using h

/-- Membership in the pre-restoration long table. -/
theorem mem_pre_long_df (t : List FilledRow) (x : PreLongRow) :
    x ∈ pre_long_df t
      ↔ ∃ i r, t[i]? = some r ∧ ∃ m ∈ pySplit r.moa, ∃ u ∈ pySplit r.target,
          x = PreLongRow.mk i r (some m) (some u) := by
  rw [pre_long_df_eq]
  constructor
  · intro hx
    rcases List.mem_flatMap.mp hx with ⟨p, hp, hx2⟩
    rcases List.mem_flatMap.mp hx2 with ⟨m, hm, hx3⟩
    rcases List.mem_map.mp hx3 with ⟨u, hu, rfl⟩
    exact ⟨p.1, p.2, mem_enum_iff.mp (by simpa using hp), m, hm, u, hu, rfl⟩
  · rintro ⟨i, r, hget, m, hm, u, hu, rfl⟩
    refine List.mem_flatMap.mpr ⟨(i, r), mem_enum_iff.mpr hget, ?_⟩
    exact List.mem_flatMap.mpr ⟨m, hm, List.mem_map.mpr ⟨u, hu, rfl⟩⟩

/-! ### Concrete inputs used by witnesses and counterexamples -/

/-- A stand-in for the opaque external `inchi.InchiToInchiKey`, used only to
instantiate the conversion parameter at concrete inputs. -/
def exConv : String → String := fun s => String.mk ('K' :: s.data)

/-- A drug row with pipe-delimited multi-valued `moa` and `target`. -/
def exDrug : DrugRow :=
  { pert_iname := "aspirin"
    clinical_phase := some "Launched"
    moa := some "cyclooxygenase inhibitor|cox inhibitor"
    target := some "PTGS1|PTGS2" }

/-- A sample row whose `InChIKey` cell already holds a 27-character InChIKey
(so it does not start with `"InChI="`-style text). -/
def exSample : SampleRow :=
  { broad_id := "BRD-A1"
    pert_iname := "aspirin"
    InChIKey := "BSYNRYMUTXBXSQ-UHFFFAOYSA-N" }

/-- A drug row with missing `moa` and `target`. -/
def exDrugNa : DrugRow :=
  { pert_iname := "metformin", clinical_phase := none, moa := none, target := none }

/-- A sample row whose `InChIKey` cell holds an InChI string. -/
def exSampleNa : SampleRow :=
  { broad_id := "BRD-A2", pert_iname := "metformin", InChIKey := "InChI=1S/C4H11N5" }

/-- A drug row whose present annotation values collide with the placeholder
string used for missing values. -/
def exDrugCollide : DrugRow :=
  { pert_iname := "warfarin"
    clinical_phase := none
    moa := some "replace_with_na"
    target := some "VKORC1|replace_with_na" }

/-- A sample row with a short `InChIKey` cell. -/
def exSampleCollide : SampleRow :=
  { broad_id := "BRD-A3", pert_iname := "warfarin", InChIKey := "AB" }

/-! ### The claims -/

/-- The assertions pass exactly when each table's `pert_iname` values all occur
in the other table. -/
theorem checkAsserts_true_iff (dd : List DrugRow) (sd : List SampleRow) :
    checkAsserts dd sd = true ↔
      (∀ d ∈ dd, ∃ s ∈ sd, s.pert_iname = d.pert_iname)
      ∧ (∀ s ∈ sd, ∃ d ∈ dd, d.pert_iname = s.pert_iname) := by
  unfold checkAsserts
  simp only [Bool.and_eq_true, beq_iff_eq, List.length_eq_zero,
    List.filter_eq_nil_iff, List.mem_map]
  constructor
  · rintro ⟨h1, h2⟩
    constructor
    · intro d hd
      have := h1 d.pert_iname ⟨d, hd, rfl⟩
      simp only [Bool.not_eq_true, Bool.not_eq_false] at this
      rcases List.mem_map.mp (by simpa using this) with ⟨s, hs, hsk⟩
      exact ⟨s, hs, hsk⟩
    · intro s hs
      have := h2 s.pert_iname ⟨s, hs, rfl⟩
      simp only [Bool.not_eq_true, Bool.not_eq_false] at this
      rcases List.mem_map.mp (by simpa using this) with ⟨d, hd, hdk⟩
      exact ⟨d, hd, hdk⟩
  · rintro ⟨h1, h2⟩
    constructor
    · rintro k ⟨d, hd, rfl⟩
      rcases h1 d hd with ⟨s, hs, hsk⟩
      simp [List.mem_map]
      exact ⟨s, hs, hsk⟩
    · rintro k ⟨s, hs, rfl⟩
      rcases h2 s hs with ⟨d, hd, hdk⟩
      simp [List.mem_map]
      exact ⟨d, hd, hdk⟩

/-- C1: the consolidated table is the inner join of the drug table and the
sample table on `pert_iname`: every output row is built (by `mkCombRow`) from a
drug row and a sample row with equal `pert_iname`, and when the assertions pass
every drug row and every sample row contributes to at least one output row. -/
theorem claim_C1 (conv : String → String) (dd : List DrugRow) (sd : List SampleRow) :
    (∀ r ∈ combined_df conv dd sd,
        ∃ p ∈ mergePairs dd sd, r = mkCombRow conv p.1 p.2)
    ∧ (∀ p ∈ mergePairs dd sd,
        p.1 ∈ dd ∧ p.2 ∈ sd ∧ p.1.pert_iname = p.2.pert_iname)
    ∧ (checkAsserts dd sd = true →
        (∀ d ∈ dd, ∃ p ∈ mergePairs dd sd, p.1 = d)
        ∧ (∀ s ∈ sd, ∃ p ∈ mergePairs dd sd, p.2 = s)) := by
  refine ⟨?_, ?_, ?_⟩
  · intro r hr
    rcases List.mem_map.mp hr with ⟨p, hp, rfl⟩
    exact ⟨p, hp, rfl⟩
  · intro p hp
    rcases List.mem_flatMap.mp hp with ⟨d, hd, hp2⟩
    rcases List.mem_map.mp hp2 with ⟨s, hs, rfl⟩
    rcases List.mem_filter.mp hs with ⟨hs2, hk⟩
    exact ⟨hd, hs2, (beq_iff_eq.mp hk).symm⟩
  · intro hck
    rcases (checkAsserts_true_iff dd sd).mp hck with ⟨h1, h2⟩
    constructor
    · intro d hd
      rcases h1 d hd with ⟨s, hs, hsk⟩
      refine ⟨(d, s), ?_, rfl⟩
      exact List.mem_flatMap.mpr ⟨d, hd,
        List.mem_map.mpr ⟨s, List.mem_filter.mpr ⟨hs, beq_iff_eq.mpr hsk⟩, rfl⟩⟩
    · intro s hs
      rcases h2 s hs with ⟨d, hd, hdk⟩
      refine ⟨(d, s), ?_, rfl⟩
      exact List.mem_flatMap.mpr ⟨d, hd,
        List.mem_map.mpr ⟨s, List.mem_filter.mpr ⟨hs, beq_iff_eq.mpr hdk.symm⟩, rfl⟩⟩

/-- Witness for C1 at a concrete one-row instance. -/
theorem claim_C1_witness :
    ((exDrug, exSample) ∈ mergePairs [exDrug] [exSample]
      ∧ exDrug ∈ ([exDrug] : List DrugRow)
      ∧ exSample ∈ ([exSample] : List SampleRow)
      ∧ exDrug.pert_iname = exSample.pert_iname)
    ∧ (∃ p ∈ mergePairs [exDrug] [exSample], p.1 = exDrug) := by
  have h := claim_C1 exConv [exDrug] [exSample]
  have hmem : (exDrug, exSample) ∈ mergePairs [exDrug] [exSample] := by decide
  have h2 := h.2.1 (exDrug, exSample) hmem
  exact ⟨⟨hmem, h2.1, h2.2.1, h2.2.2⟩, (h.2.2 (by decide)).1 exDrug (by decide)⟩

/-- C2: the script fails (an assertion is false) exactly when some `pert_iname`
occurs in one table but not the other, and on failure no merged output is
produced. -/
theorem claim_C2 (conv : String → String) (dd : List DrugRow) (sd : List SampleRow) :
    (checkAsserts dd sd = false ↔
      (∃ k, k ∈ dd.map DrugRow.pert_iname ∧ k ∉ sd.map SampleRow.pert_iname)
      ∨ (∃ k, k ∈ sd.map SampleRow.pert_iname ∧ k ∉ dd.map DrugRow.pert_iname))
    ∧ (runScript conv dd sd = none ↔ checkAsserts dd sd = false) := by
  constructor
  · rw [Bool.eq_false_iff, Ne, checkAsserts_true_iff]
    constructor
    · intro h
      rcases not_and_or.mp h with h1 | h1
      · rcases (by simpa using h1 :
            ∃ d ∈ dd, ∀ s ∈ sd, ¬s.pert_iname = d.pert_iname) with ⟨d, hdd, hne⟩
        refine Or.inl ⟨d.pert_iname, List.mem_map.mpr ⟨d, hdd, rfl⟩, ?_⟩
        intro hmem
        rcases List.mem_map.mp hmem with ⟨s, hs, hsk⟩
        exact hne s hs hsk
      · rcases (by simpa using h1 :
            ∃ s ∈ sd, ∀ d ∈ dd, ¬d.pert_iname = s.pert_iname) with ⟨s, hss, hne⟩
        refine Or.inr ⟨s.pert_iname, List.mem_map.mpr ⟨s, hss, rfl⟩, ?_⟩
        intro hmem
        rcases List.mem_map.mp hmem with ⟨d, hd, hdk⟩
        exact hne d hd hdk
    · rintro (⟨k, hk, hnk⟩ | ⟨k, hk, hnk⟩) ⟨h1, h2⟩
      · rcases List.mem_map.mp hk with ⟨d, hd, rfl⟩
        rcases h1 d hd with ⟨s, hs, hsk⟩
        exact hnk (List.mem_map.mpr ⟨s, hs, hsk⟩)
      · rcases List.mem_map.mp hk with ⟨s, hs, rfl⟩
        rcases h2 s hs with ⟨d, hd, hdk⟩
        exact hnk (List.mem_map.mpr ⟨d, hd, hdk⟩)
  · unfold runScript
    cases h : checkAsserts dd sd <;> simp [h]

/-- Witness for C2: with one drug row and an empty sample table the script
produces no output. -/
theorem claim_C2_witness : runScript exConv [exDrug] [] = none := by
  have h := claim_C2 exConv [exDrug] []
  exact h.2.mpr (h.1.mpr (Or.inl ⟨"aspirin", by decide, by decide⟩))

/-- Rebuilding a string from its character list is the identity. -/
theorem string_mk_data (s : String) : String.mk s.data = s := by
  cases s
  rfl

/-- The length of a Python slice `s[:n]`. -/
theorem pyTake_length (n : Nat) (s : String) : (pyTake n s).length = min n s.length := by
  have h : (pyTake n s).length = (s.data.take n).length := rfl
  rw [h, List.length_take]
  rfl

/-- A Python slice `s[:n]` is the whole string exactly when `s` has at most `n`
characters. -/
theorem pyTake_eq_self_iff (n : Nat) (s : String) : pyTake n s = s ↔ s.length ≤ n := by
  constructor
  · intro h
    have h2 := congrArg String.length h
    rw [pyTake_length] at h2
    omega
  · intro h
    unfold pyTake
    rw [List.take_of_length_le h, string_mk_data]

/-- C3 counterexample: a consolidated row whose `InChIKey` is not in the
expected format (it does not start with `"InChI"`) and is nevertheless not
passed through unchanged — the cell is truncated to its first 14 characters. -/
theorem claim_C3_counterexample :
    ∃ r ∈ combined_df exConv [exDrug] [exSample],
      pyStartsWith r.InChIKey "InChI" = false ∧ r.InChIKey14 ≠ r.InChIKey := by
  decide

/-- C3 (amended): for every consolidated row, `InChIKey14` is the first 14
characters of the externally converted key when the `InChIKey` field starts
with `"InChI"`, and the first 14 characters of the field itself otherwise; in
the second case the field is carried over unchanged precisely when it has at
most 14 characters. -/
theorem claim_C3 (conv : String → String) (dd : List DrugRow) (sd : List SampleRow) :
    ∀ r ∈ combined_df conv dd sd,
      (pyStartsWith r.InChIKey "InChI" = true →
        r.InChIKey14 = pyTake 14 (conv r.InChIKey))
      ∧ (pyStartsWith r.InChIKey "InChI" = false →
        r.InChIKey14 = pyTake 14 r.InChIKey
        ∧ (r.InChIKey14 = r.InChIKey ↔ r.InChIKey.length ≤ 14)) := by
  intro r hr
  rcases List.mem_map.mp hr with ⟨p, _, rfl⟩
  constructor
  · intro hsw
    have hsw2 : pyStartsWith p.2.InChIKey "InChI" = true := hsw
    show inchikey14 conv p.2.InChIKey = pyTake 14 (conv p.2.InChIKey)
    unfold inchikey14
    rw [if_pos hsw2]
  · intro hsw
    have hsw2 : pyStartsWith p.2.InChIKey "InChI" = false := hsw
    have h1 : inchikey14 conv p.2.InChIKey = pyTake 14 p.2.InChIKey := by
      unfold inchikey14
      rw [if_neg (by simp [hsw2])]
    refine ⟨h1, ?_⟩
    show inchikey14 conv p.2.InChIKey = p.2.InChIKey ↔ p.2.InChIKey.length ≤ 14
    rw [h1]
    exact pyTake_eq_self_iff 14 p.2.InChIKey

/-- Witness for C3 at a concrete instance exercising the non-`InChI` branch. -/
theorem claim_C3_witness :
    pyStartsWith (mkCombRow exConv exDrug exSample).InChIKey "InChI" = false
    ∧ (mkCombRow exConv exDrug exSample).InChIKey14
        = pyTake 14 (mkCombRow exConv exDrug exSample).InChIKey := by
  have h := claim_C3 exConv [exDrug] [exSample]
    (mkCombRow exConv exDrug exSample) (by decide)
  exact ⟨by decide, (h.2 (by decide)).1⟩

/-- C10: every consolidated row's `InChIKey14` has length at most 14, and it is
the first `min 14 length` characters of the string it is derived from: the
converted key when the `InChIKey` field starts with `"InChI"`, the field itself
otherwise. -/
theorem claim_C10 (conv : String → String) (dd : List DrugRow) (sd : List SampleRow) :
    ∀ r ∈ combined_df conv dd sd,
      r.InChIKey14.length ≤ 14
      ∧ r.InChIKey14
          = pyTake 14 (if pyStartsWith r.InChIKey "InChI" then conv r.InChIKey
              else r.InChIKey)
      ∧ r.InChIKey14.length
          = min 14 (if pyStartsWith r.InChIKey "InChI" then conv r.InChIKey
              else r.InChIKey).length := by
  intro r hr
  rcases List.mem_map.mp hr with ⟨p, _, rfl⟩
  have h1 : (mkCombRow conv p.1 p.2).InChIKey14
      = pyTake 14 (if pyStartsWith (mkCombRow conv p.1 p.2).InChIKey "InChI"
          then conv (mkCombRow conv p.1 p.2).InChIKey
          else (mkCombRow conv p.1 p.2).InChIKey) := rfl
  refine ⟨?_, h1, ?_⟩
  · rw [h1, pyTake_length]
    omega
  · rw [h1, pyTake_length]

/-- Witness for C10 at a concrete instance exercising the `InChI` branch. -/
theorem claim_C10_witness :
    (mkCombRow exConv exDrugNa exSampleNa).InChIKey14.length ≤ 14
    ∧ (mkCombRow exConv exDrugNa exSampleNa).InChIKey14
        = pyTake 14 (if pyStartsWith (mkCombRow exConv exDrugNa exSampleNa).InChIKey "InChI"
            then exConv (mkCombRow exConv exDrugNa exSampleNa).InChIKey
            else (mkCombRow exConv exDrugNa exSampleNa).InChIKey) := by
  have h := claim_C10 exConv [exDrugNa] [exSampleNa]
    (mkCombRow exConv exDrugNa exSampleNa) (by decide)
  exact ⟨h.1, h.2.1⟩

/-- Membership in the final long table, in terms of the combined table: each
long row is the restoration of an exploded row of some combined row. -/
theorem mem_long_combined_df (conv : String → String) (dd : List DrugRow)
    (sd : List SampleRow) (lr : LongRow) :
    lr ∈ long_combined_df conv dd sd
      ↔ ∃ i r, (combined_df conv dd sd)[i]? = some r
          ∧ ∃ m ∈ pySplit (fillRow r).moa, ∃ u ∈ pySplit (fillRow r).target,
              lr = restoreRow (PreLongRow.mk i (fillRow r) (some m) (some u)) := by
  unfold long_combined_df
  rw [List.mem_map]
  constructor
  · rintro ⟨x, hx, rfl⟩
    rcases (mem_pre_long_df _ x).mp hx with ⟨i, fr, hget, m, hm, u, hu, rfl⟩
    unfold filled_df at hget
    rw [List.getElem?_map] at hget
    rcases Option.map_eq_some'.mp hget with ⟨r, hr, rfl⟩
    exact ⟨i, r, hr, m, hm, u, hu, rfl⟩
  · rintro ⟨i, r, hr, m, hm, u, hu, rfl⟩
    refine ⟨PreLongRow.mk i (fillRow r) (some m) (some u), ?_, rfl⟩
    refine (mem_pre_long_df _ _).mpr ⟨i, fillRow r, ?_, m, hm, u, hu, rfl⟩
    unfold filled_df
    rw [List.getElem?_map, hr]
    rfl

/-- C5: every row of each split table points back, via its stored index, to a
row of the combined table, and its split value is one of the pipe-separated
pieces of that combined row's (placeholder-filled) `moa` respectively `target`
field. -/
theorem claim_C5 (conv : String → String) (dd : List DrugRow) (sd : List SampleRow) :
    (∀ x ∈ moa_split_df (filled_df conv dd sd),
        ∃ r, (combined_df conv dd sd)[x.1]? = some r
          ∧ x.2.2 ∈ pySplit (fillRow r).moa)
    ∧ (∀ x ∈ target_split_df (filled_df conv dd sd),
        ∃ r, (combined_df conv dd sd)[x.1]? = some r
          ∧ x.2.2 ∈ pySplit (fillRow r).target) := by
  constructor
  · intro x hx
    rcases List.mem_flatMap.mp hx with ⟨p, hp, hx2⟩
    rcases List.mem_map.mp hx2 with ⟨q, hq, rfl⟩
    have hget : (filled_df conv dd sd)[p.1]? = some p.2 :=
      mem_enum_iff.mp (by simpa using hp)
    unfold filled_df at hget
    rw [List.getElem?_map] at hget
    rcases Option.map_eq_some'.mp hget with ⟨r, hr, hfr⟩
    refine ⟨r, hr, ?_⟩
    rw [hfr]
    exact List.getElem?_mem (mem_enum_iff.mp (by simpa using hq))
  · intro x hx
    rcases List.mem_flatMap.mp hx with ⟨p, hp, hx2⟩
    rcases List.mem_map.mp hx2 with ⟨q, hq, rfl⟩
    have hget : (filled_df conv dd sd)[p.1]? = some p.2 :=
      mem_enum_iff.mp (by simpa using hp)
    unfold filled_df at hget
    rw [List.getElem?_map] at hget
    rcases Option.map_eq_some'.mp hget with ⟨r, hr, hfr⟩
    refine ⟨r, hr, ?_⟩
    rw [hfr]
    exact List.getElem?_mem (mem_enum_iff.mp (by simpa using hq))

/-- Witness for C5 at a concrete split-table row. -/
theorem claim_C5_witness :
    (0, 1, "cox inhibitor") ∈ moa_split_df (filled_df exConv [exDrug] [exSample])
    ∧ ∃ r, (combined_df exConv [exDrug] [exSample])[(0 : Nat)]? = some r
        ∧ "cox inhibitor" ∈ pySplit (fillRow r).moa := by
  refine ⟨by decide, ?_⟩
  exact (claim_C5 exConv [exDrug] [exSample]).1 (0, 1, "cox inhibitor") (by decide)

/-- Restoration maps the placeholder to a missing value. -/
theorem restoreCell_placeholder : restoreCell "replace_with_na" = none := by decide

/-- Restoration leaves any other string untouched. -/
theorem restoreCell_of_ne (s : String) (h : s ≠ "replace_with_na") :
    restoreCell s = some s := by
  unfold restoreCell
  rw [if_neg h]

/-- No cell of the restored long table can still hold the placeholder. -/
theorem restoreCell_ne_some_placeholder (s : String) :
    restoreCell s ≠ some "replace_with_na" := by
  unfold restoreCell
  split
  · simp
  · simp_all

/-- No optional cell of the restored long table can still hold the placeholder. -/
theorem restoreOptCell_ne_some_placeholder (v : Option String) :
    restoreOptCell v ≠ some "replace_with_na" := by
  cases v
  · simp [restoreOptCell]
  · exact restoreCell_ne_some_placeholder _

/-- Splitting the placeholder string yields itself. -/
theorem pySplit_placeholder : pySplit "replace_with_na" = ["replace_with_na"] := by
  decide

/-- Applying `fillna` yields the placeholder exactly on missing cells or a
genuine placeholder string. -/
theorem fillNa_eq_placeholder_iff (v : Option String) :
    fillNa v = "replace_with_na" ↔ v = none ∨ v = some "replace_with_na" := by
  cases v <;> simp [fillNa]

/-- The block of the final long table belonging to one combined row. -/
theorem long_filter_idx (conv : String → String) (dd : List DrugRow)
    (sd : List SampleRow) (i : Nat) (r : CombRow)
    (hr : (combined_df conv dd sd)[i]? = some r) :
    (long_combined_df conv dd sd).filter (fun x => x.idx == i)
      = (pySplit (fillRow r).moa).flatMap (fun m =>
          (pySplit (fillRow r).target).map (fun u =>
            restoreRow (PreLongRow.mk i (fillRow r) (some m) (some u)))) := by
  unfold long_combined_df
  rw [List.filter_map]
  have hfn : ((fun x : LongRow => x.idx == i) ∘ restoreRow)
      = (fun x : PreLongRow => x.idx == i) := rfl
  rw [hfn, pre_long_df_filter]
  unfold filled_df
  rw [List.getElem?_map, hr]
  simp only [Option.map_some', Option.getD_some]
  rw [List.map_flatMap]
  refine List.flatMap_congr (fun m _ => ?_)
  rw [List.map_map]
  rfl

/-- C4 counterexample: with one original row whose `moa` splits into two values
and whose `target` splits into two values, an individual target value appears in
two rows of the long table, not exactly one. -/
theorem claim_C4_counterexample :
    (filled_df exConv [exDrug] [exSample])[0]?
        = some (fillRow (mkCombRow exConv exDrug exSample))
    ∧ "PTGS1" ∈ pySplit (fillRow (mkCombRow exConv exDrug exSample)).target
    ∧ ((long_combined_df exConv [exDrug] [exSample]).filter
          (fun x => x.idx == 0 && x.target_unique == some "PTGS1")).length = 2 := by
  decide

/-- C4 (amended): for every original row, the long table contains exactly one
row for each ordered pair of one `moa` split value and one `target` split value
(the Cartesian product of the two splits, with placeholders restored), so an
individual `moa` value recurs once per `target` value of the same row and vice
versa. -/
theorem claim_C4 (conv : String → String) (dd : List DrugRow) (sd : List SampleRow) :
    ∀ i r, (combined_df conv dd sd)[i]? = some r →
      ((long_combined_df conv dd sd).filter (fun x => x.idx == i)).map
          (fun x => (x.moa_unique, x.target_unique))
        = (pySplit (fillRow r).moa).flatMap (fun m =>
            (pySplit (fillRow r).target).map
              (fun u => (restoreCell m, restoreCell u))) := by
  intro i r hr
  rw [long_filter_idx conv dd sd i r hr, List.map_flatMap]
  refine List.flatMap_congr (fun m _ => ?_)
  rw [List.map_map]
  rfl

/-- Witness for C4 at a concrete two-by-two instance. -/
theorem claim_C4_witness :
    ((long_combined_df exConv [exDrug] [exSample]).filter (fun x => x.idx == 0)).map
        (fun x => (x.moa_unique, x.target_unique))
      = (pySplit (fillRow (mkCombRow exConv exDrug exSample)).moa).flatMap (fun m =>
          (pySplit (fillRow (mkCombRow exConv exDrug exSample)).target).map
            (fun u => (restoreCell m, restoreCell u))) :=
  claim_C4 exConv [exDrug] [exSample] 0 (mkCombRow exConv exDrug exSample) (by decide)

/-- C6 counterexample: a present `moa` value equal to the placeholder string is
changed by the restoration, so present rows are not always unaffected. -/
theorem claim_C6_counterexample :
    ∃ lr ∈ long_combined_df exConv [exDrugCollide] [exSampleCollide],
      ∃ r ∈ combined_df exConv [exDrugCollide] [exSampleCollide],
        (combined_df exConv [exDrugCollide] [exSampleCollide])[lr.idx]? = some r
        ∧ r.moa ≠ none ∧ lr.moa ≠ r.moa := by
  decide

/-- C6 (amended): rows whose `moa` (or `target`) was missing come out missing in
the long table, in both the original column and its `_unique` counterpart; rows
whose values were present and distinct from the placeholder string keep their
`moa`/`target` cell unchanged by the restoration (a present value equal to the
placeholder is also turned into missing). -/
theorem claim_C6 (conv : String → String) (dd : List DrugRow) (sd : List SampleRow) :
    ∀ lr ∈ long_combined_df conv dd sd, ∀ r,
      (combined_df conv dd sd)[lr.idx]? = some r →
        ((r.moa = none → lr.moa = none ∧ lr.moa_unique = none)
         ∧ (r.target = none → lr.target = none ∧ lr.target_unique = none)
         ∧ (∀ m, r.moa = some m → m ≠ "replace_with_na" → lr.moa = some m)
         ∧ (∀ u, r.target = some u → u ≠ "replace_with_na" → lr.target = some u)) := by
  intro lr hlr r hr
  rcases (mem_long_combined_df conv dd sd lr).mp hlr with ⟨i, r2, hr2, m, hm, u, hu, rfl⟩
  have hidx : (restoreRow (PreLongRow.mk i (fillRow r2) (some m) (some u))).idx = i := rfl
  rw [hidx] at hr
  obtain rfl : r2 = r := Option.some_injective _ (hr2.symm.trans hr)
  refine ⟨?_, ?_, ?_, ?_⟩
  · intro hmoa
    have hfill : (fillRow r2).moa = "replace_with_na" := by
      show fillNa r2.moa = "replace_with_na"
      rw [hmoa]
      rfl
    constructor
    · show restoreCell (fillRow r2).moa = none
      rw [hfill]
      exact restoreCell_placeholder
    · have hmp : m = "replace_with_na" := by
        rw [hfill, pySplit_placeholder] at hm
        simpa using hm
      show restoreCell m = none
      rw [hmp]
      exact restoreCell_placeholder
  · intro htar
    have hfill : (fillRow r2).target = "replace_with_na" := by
      show fillNa r2.target = "replace_with_na"
      rw [htar]
      rfl
    constructor
    · show restoreCell (fillRow r2).target = none
      rw [hfill]
      exact restoreCell_placeholder
    · have hup : u = "replace_with_na" := by
        rw [hfill, pySplit_placeholder] at hu
        simpa using hu
      show restoreCell u = none
      rw [hup]
      exact restoreCell_placeholder
  · intro m2 hmoa hne
    show restoreCell (fillRow r2).moa = some m2
    have hfill : (fillRow r2).moa = m2 := by
      show fillNa r2.moa = m2
      rw [hmoa]
      rfl
    rw [hfill]
    exact restoreCell_of_ne m2 hne
  · intro u2 htar hne
    show restoreCell (fillRow r2).target = some u2
    have hfill : (fillRow r2).target = u2 := by
      show fillNa r2.target = u2
      rw [htar]
      rfl
    rw [hfill]
    exact restoreCell_of_ne u2 hne

/-- The single long-table row produced from `exDrugNa` / `exSampleNa`. -/
def exLongNa : LongRow :=
  restoreRow (PreLongRow.mk 0 (fillRow (mkCombRow exConv exDrugNa exSampleNa))
    (some "replace_with_na") (some "replace_with_na"))

/-- Witness for C6 at a concrete instance with missing `moa` and `target`. -/
theorem claim_C6_witness :
    (mkCombRow exConv exDrugNa exSampleNa).moa = none
    ∧ exLongNa.moa = none ∧ exLongNa.moa_unique = none
    ∧ exLongNa.target = none ∧ exLongNa.target_unique = none := by
  have h := claim_C6 exConv [exDrugNa] [exSampleNa] exLongNa (by decide)
    (mkCombRow exConv exDrugNa exSampleNa) (by decide)
  have h1 := h.1 (by decide)
  have h2 := h.2.1 (by decide)
  exact ⟨by decide, h1.1, h1.2, h2.1, h2.2⟩

/-- C8: every row of the long table agrees with the combined-table row named by
its back-reference index on every column of the combined table (with the `moa`
and `target` columns as the restoration leaves them); the long-format merge only
appends `repurposing_info_index`, `moa_unique` and `target_unique`. -/
theorem claim_C8 (conv : String → String) (dd : List DrugRow) (sd : List SampleRow) :
    ∀ lr ∈ long_combined_df conv dd sd,
      ∃ r, (combined_df conv dd sd)[lr.idx]? = some r
        ∧ lr.broad_id = r.broad_id
        ∧ lr.pert_iname = r.pert_iname
        ∧ lr.clinical_phase = r.clinical_phase
        ∧ lr.InChIKey = r.InChIKey
        ∧ lr.InChIKey14 = r.InChIKey14
        ∧ lr.moa = restoreCell (fillNa r.moa)
        ∧ lr.target = restoreCell (fillNa r.target) := by
  intro lr hlr
  rcases (mem_long_combined_df conv dd sd lr).mp hlr with ⟨i, r, hr, m, hm, u, hu, rfl⟩
  exact ⟨r, hr, rfl, rfl, rfl, rfl, rfl, rfl, rfl⟩

/-- One long-table row produced from `exDrug` / `exSample`. -/
def exLong1 : LongRow :=
  restoreRow (PreLongRow.mk 0 (fillRow (mkCombRow exConv exDrug exSample))
    (some "cyclooxygenase inhibitor") (some "PTGS1"))

/-- Witness for C8 at a concrete long-table row. -/
theorem claim_C8_witness :
    ∃ r, (combined_df exConv [exDrug] [exSample])[exLong1.idx]? = some r
      ∧ exLong1.broad_id = r.broad_id
      ∧ exLong1.pert_iname = r.pert_iname
      ∧ exLong1.clinical_phase = r.clinical_phase
      ∧ exLong1.InChIKey = r.InChIKey
      ∧ exLong1.InChIKey14 = r.InChIKey14
      ∧ exLong1.moa = restoreCell (fillNa r.moa)
      ∧ exLong1.target = restoreCell (fillNa r.target) :=
  claim_C8 exConv [exDrug] [exSample] exLong1 (by decide)

/-- C9: the restoration step turns every placeholder-valued cell of the four
affected columns into a missing value — no cell of the final long table still
holds the literal placeholder, and a combined row whose `moa` (or `target`) was
genuinely the string `"replace_with_na"` comes out missing exactly as if it had
been NaN. -/
theorem claim_C9 (conv : String → String) (dd : List DrugRow) (sd : List SampleRow) :
    ∀ lr ∈ long_combined_df conv dd sd,
      (lr.moa ≠ some "replace_with_na"
        ∧ lr.moa_unique ≠ some "replace_with_na"
        ∧ lr.target ≠ some "replace_with_na"
        ∧ lr.target_unique ≠ some "replace_with_na")
      ∧ ∀ r, (combined_df conv dd sd)[lr.idx]? = some r →
          ((r.moa = some "replace_with_na" → lr.moa = none ∧ lr.moa_unique = none)
           ∧ (r.target = some "replace_with_na" →
               lr.target = none ∧ lr.target_unique = none)) := by
  intro lr hlr
  constructor
  · rcases (mem_long_combined_df conv dd sd lr).mp hlr with ⟨i, r, hr, m, hm, u, hu, rfl⟩
    exact ⟨restoreCell_ne_some_placeholder _, restoreOptCell_ne_some_placeholder (some m),
      restoreCell_ne_some_placeholder _, restoreOptCell_ne_some_placeholder (some u)⟩
  · intro r hr
    rcases (mem_long_combined_df conv dd sd lr).mp hlr with ⟨i, r2, hr2, m, hm, u, hu, rfl⟩
    have hidx : (restoreRow (PreLongRow.mk i (fillRow r2) (some m) (some u))).idx = i := rfl
    rw [hidx] at hr
    obtain rfl : r2 = r := Option.some_injective _ (hr2.symm.trans hr)
    constructor
    · intro hmoa
      have hfill : (fillRow r2).moa = "replace_with_na" := by
        show fillNa r2.moa = "replace_with_na"
        rw [hmoa]
        rfl
      constructor
      · show restoreCell (fillRow r2).moa = none
        rw [hfill]
        exact restoreCell_placeholder
      · have hmp : m = "replace_with_na" := by
          rw [hfill, pySplit_placeholder] at hm
          simpa using hm
        show restoreCell m = none
        rw [hmp]
        exact restoreCell_placeholder
    · intro htar
      have hfill : (fillRow r2).target = "replace_with_na" := by
        show fillNa r2.target = "replace_with_na"
        rw [htar]
        rfl
      constructor
      · show restoreCell (fillRow r2).target = none
        rw [hfill]
        exact restoreCell_placeholder
      · have hup : u = "replace_with_na" := by
          rw [hfill, pySplit_placeholder] at hu
          simpa using hu
        show restoreCell u = none
        rw [hup]
        exact restoreCell_placeholder

/-- One long-table row produced from the placeholder-colliding input. -/
def exLongCollide : LongRow :=
  restoreRow (PreLongRow.mk 0 (fillRow (mkCombRow exConv exDrugCollide exSampleCollide))
    (some "replace_with_na") (some "VKORC1"))

/-- Witness for C9: a genuine `"replace_with_na"` string in the input `moa`
column comes out as a missing value. -/
theorem claim_C9_witness :
    (mkCombRow exConv exDrugCollide exSampleCollide).moa = some "replace_with_na"
    ∧ exLongCollide.moa = none ∧ exLongCollide.moa_unique = none := by
  have h := claim_C9 exConv [exDrugCollide] [exSampleCollide] exLongCollide (by decide)
  have h2 := (h.2 (mkCombRow exConv exDrugCollide exSampleCollide) (by decide)).1 (by decide)
  exact ⟨by decide, h2.1, h2.2⟩

/-- Label lookup in a list of cells built by mapping a function over the labels
recovers that function. -/
theorem cellAt_selectCols (cols order : List String) (row : List (Option String))
    (c : String) (hc : c ∈ order) :
    (selectCols cols row order).getD (order.indexOf c) none = cellAt cols row c := by
  have hlt : order.indexOf c < order.length := List.indexOf_lt_length.mpr hc
  have hlt2 : order.indexOf c < (selectCols cols row order).length := by
    unfold selectCols
    rw [List.length_map]
    exact hlt
  rw [List.getD_eq_getElem?_getD, List.getElem?_eq_getElem hlt2]
  unfold selectCols
  rw [List.getElem_map]
  rw [List.getElem_indexOf hlt]
  rfl

/-- C7: the column reordering moves exactly `broad_id` to the front — the new
column list is `broad_id` followed by the remaining columns in their original
relative order and is a permutation of the old list (nothing added or dropped),
the appended `InChIKey14` column sits at the end, and every cell keeps its value
under its column label. -/
theorem claim_C7 (cols : List String) (row : List (Option String)) (v : Option String)
    (hb : "broad_id" ∈ cols) (hik : "InChIKey14" ∉ cols) :
    col_order cols = "broad_id" :: cols.erase "broad_id"
    ∧ (col_order cols).Perm cols
    ∧ (∀ c ∈ cols,
        cellAt (col_order cols ++ ["InChIKey14"])
          (selectCols cols row (col_order cols) ++ [v]) c = cellAt cols row c)
    ∧ cellAt (col_order cols ++ ["InChIKey14"])
        (selectCols cols row (col_order cols) ++ [v]) "InChIKey14" = v := by
  have hlt : cols.indexOf "broad_id" < cols.length := List.indexOf_lt_length.mpr hb
  have hco : col_order cols = "broad_id" :: cols.erase "broad_id" := by
    unfold col_order
    rw [List.eraseIdx_indexOf_eq_erase, List.getD_eq_getElem?_getD,
      List.getElem?_eq_getElem hlt]
    rw [List.getElem_indexOf hlt]
    rfl
  have hperm : (col_order cols).Perm cols := by
    rw [hco]
    exact (List.perm_cons_erase hb).symm
  have hik2 : "InChIKey14" ∉ col_order cols := fun hmem => hik (hperm.mem_iff.mp hmem)
  refine ⟨hco, hperm, ?_, ?_⟩
  · intro c hc
    have hc2 : c ∈ col_order cols := hperm.mem_iff.mpr hc
    unfold cellAt
    rw [List.indexOf_append_of_mem hc2]
    have hlt3 : (col_order cols).indexOf c < (selectCols cols row (col_order cols)).length := by
      unfold selectCols
      rw [List.length_map]
      exact List.indexOf_lt_length.mpr hc2
    rw [List.getD_eq_getElem?_getD, List.getElem?_append]
    rw [if_pos hlt3]
    rw [← List.getD_eq_getElem?_getD]
    exact cellAt_selectCols cols (col_order cols) row c hc2
  · unfold cellAt
    rw [List.indexOf_append_of_not_mem hik2]
    have hsel : (selectCols cols row (col_order cols)).length = (col_order cols).length := by
      unfold selectCols
      rw [List.length_map]
    have hidx0 : List.indexOf "InChIKey14" ["InChIKey14"] = 0 := rfl
    rw [hidx0, Nat.add_zero, List.getD_eq_getElem?_getD,
      List.getElem?_append_right (by omega)]
    rw [hsel, Nat.sub_self]
    rfl

/-- Witness for C7 on the concrete column list of the merged tables. -/
theorem claim_C7_witness :
    col_order ["pert_iname", "clinical_phase", "moa", "target", "broad_id", "InChIKey"]
      = "broad_id" :: ["pert_iname", "clinical_phase", "moa", "target", "broad_id",
          "InChIKey"].erase "broad_id"
    ∧ cellAt
        (col_order ["pert_iname", "clinical_phase", "moa", "target", "broad_id",
            "InChIKey"] ++ ["InChIKey14"])
        (selectCols ["pert_iname", "clinical_phase", "moa", "target", "broad_id",
            "InChIKey"]
          [some "aspirin", some "Launched", none, some "PTGS1|PTGS2", some "BRD-A1",
            some "BSYNRYMUTXBXSQ-UHFFFAOYSA-N"]
          (col_order ["pert_iname", "clinical_phase", "moa", "target", "broad_id",
            "InChIKey"]) ++ [some "BSYNRYMUTXBXSQ"]) "moa"
      = cellAt ["pert_iname", "clinical_phase", "moa", "target", "broad_id", "InChIKey"]
          [some "aspirin", some "Launched", none, some "PTGS1|PTGS2", some "BRD-A1",
            some "BSYNRYMUTXBXSQ-UHFFFAOYSA-N"] "moa" := by
  have h := claim_C7
    ["pert_iname", "clinical_phase", "moa", "target", "broad_id", "InChIKey"]
    [some "aspirin", some "Launched", none, some "PTGS1|PTGS2", some "BRD-A1",
      some "BSYNRYMUTXBXSQ-UHFFFAOYSA-N"]
    (some "BSYNRYMUTXBXSQ") (by decide) (by decide)
  exact ⟨h.1, h.2.2.1 "moa" (by decide)⟩
